import Mathlib

/-!
Verification of the wallet reconciliation and alerting engine of the
Saros DLMM Telegram bot.  The definitions below are a shallow embedding of
the authoritative source file (`src/index.ts`, the polling/faucet/import
version): JS numbers are modelled as rationals, the two global in-memory
registries as functions from the numeric user id, fallible remote calls as
`Except String` valued oracles, and the stateful handlers as explicit
state-passing functions.
-/

namespace SarosDlmm

/-- Position record held in the bot's state (`PositionData` in the source):
pool address plus bin range, liquidity and accrued fees; the JS `number`
fields are modelled as rationals. -/
structure PositionData where
  pool : String
  lowerBin : ℚ
  upperBin : ℚ
  liquidity : ℚ
  feesEarned : ℚ
deriving DecidableEq

/-- Per-owner cached snapshot (`UserState` in the source).  `lastFaucetTime`
is optional, mirroring the `lastFaucetTime?` field. -/
structure UserState where
  lastBalance : ℚ
  lastPositions : List PositionData
  lastSignatures : List String
  network : String
  lastFaucetTime : Option ℚ
deriving DecidableEq

/-- Wallet record stored in the global `wallets` map (`WalletData`). -/
structure WalletData where
  publicKey : String
  privateKey : String
deriving DecidableEq

/-- The two global in-memory registries of the source (`wallets` and
`states`), keyed by the numeric Telegram user id. -/
structure GState where
  wallets : Nat → Option WalletData
  states : Nat → Option UserState

/-- Scaled value of the JS `x.toFixed(4)` formatting: the integer nearest
`q * 10 ^ 4`, ties rounded up — the ECMAScript `toFixed` rounding for the
non-negative balances the bot handles. -/
def toFixed4 (q : ℚ) : Int := ⌊q * 10000 + 1 / 2⌋

/-- Digit groups of the `toFixed(4)` string: the integer part and the four
fractional digits.  Two non-negative numbers format to the same string
exactly when these pairs agree. -/
def toFixedRepr (q : ℚ) : Int × Int := (toFixed4 q / 10000, toFixed4 q % 10000)

/-- Structural projection used by the reconciliation poll when comparing
position lists: the record `\x7b p: pool, l: lowerBin, u: upperBin,
liq: liquidity \x7d`, dropping `feesEarned`.  Equality of the JSON
stringifications of two projected lists coincides with equality of the
projected lists themselves. -/
def structuralProj (p : PositionData) : String × ℚ × ℚ × ℚ :=
  (p.pool, p.lowerBin, p.upperBin, p.liquidity)

/-- Change dimensions from which the poll's alert message is assembled. -/
structure ChangeSet where
  balanceChanged : Bool
  positionsChanged : Bool
  signatureAlert : Bool
deriving DecidableEq

/-- Change detection of one reconciliation step (source lines 856-873):
the balance is compared through its `toFixed(4)` string, the position
lists through the structural projection, and a signature alert is raised
when some current signature is not included in the stored list. -/
def diffSnapshot (old : UserState) (newBal : ℚ) (newPos : List PositionData)
    (newSigs : List String) : ChangeSet where
  balanceChanged := decide (toFixedRepr old.lastBalance ≠ toFixedRepr newBal)
  positionsChanged :=
    decide (newPos.map structuralProj ≠ old.lastPositions.map structuralProj)
  signatureAlert := newSigs.any fun sig => !(old.lastSignatures.contains sig)

/-- Value of the signature dimension described by the specification: the
set of signatures of the new list that are absent from the old list. -/
def newSignatureSet (oldSigs newSigs : List String) : Finset String :=
  newSigs.toFinset \ oldSigs.toFinset

/-- Remote-fetch outcomes a reconciliation cycle observes for each owner,
each already including the call's own retry handling. -/
structure Env where
  getBalance : Nat → Except String ℚ
  getPositions : Nat → Except String (List PositionData)
  getSignatures : Nat → Except String (List String)

/-- True when all three fetches for the owner succeed. -/
def fetchOk (env : Env) (a : Nat) : Bool :=
  match env.getBalance a, env.getPositions a, env.getSignatures a with
  | .ok _, .ok _, .ok _ => true
  | _, _, _ => false

/-- Default state inserted by the polling loop the first time it sees an
owner (source line 818): zero balance, no positions, no signatures. -/
def defaultPollState : UserState :=
  { lastBalance := 0, lastPositions := [], lastSignatures := []
    network := "devnet", lastFaucetTime := none }

/-- Default state inserted by the faucet handler (source line 374), which
additionally sets `lastFaucetTime` to `0`. -/
def defaultFaucetState : UserState :=
  { lastBalance := 0, lastPositions := [], lastSignatures := []
    network := "devnet", lastFaucetTime := some 0 }

/-- Replace one owner's snapshot entry. -/
def setState (g : GState) (uid : Nat) (s : UserState) : GState :=
  { g with states := fun b => if b = uid then some s else g.states b }

/-- Insert `d` as the owner's snapshot if the owner has none yet. -/
def ensureState (g : GState) (uid : Nat) (d : UserState) : GState :=
  match g.states uid with
  | none => setState g uid d
  | some _ => g

/-- One owner's slice of a reconciliation cycle (source lines 814-894):
initialise a missing state, fetch balance, positions and signatures, and —
only when every fetch succeeded — compute the change set and store the new
snapshot (keeping `network` and `lastFaucetTime`).  Any fetch failure is
caught at this per-owner boundary and leaves the (possibly just
initialised) registries as they are, producing no change set. -/
def processOwner (env : Env) (g : GState) (uid : Nat) : GState × Option ChangeSet :=
  let g1 := ensureState g uid defaultPollState
  let state := (g1.states uid).getD defaultPollState
  match env.getBalance uid, env.getPositions uid, env.getSignatures uid with
  | .ok bal, .ok ps, .ok sigs =>
      (setState g1 uid
        { state with lastBalance := bal, lastPositions := ps, lastSignatures := sigs },
       some (diffSnapshot state bal ps sigs))
  | _, _, _ => (g1, none)

/-- Snapshot entry an owner holds after its slice of a cycle, as a function
of the entry it held before. -/
def ownerStepState (env : Env) (prev : Option UserState) (uid : Nat) : UserState :=
  let st := prev.getD defaultPollState
  match env.getBalance uid, env.getPositions uid, env.getSignatures uid with
  | .ok bal, .ok ps, .ok sigs =>
      { st with lastBalance := bal, lastPositions := ps, lastSignatures := sigs }
  | _, _, _ => st

/-- One full reconciliation tick: fold the per-owner step over the
registered owners in order. -/
def runCycle (env : Env) (g : GState) (owners : List Nat) : GState :=
  owners.foldl (fun acc a => (processOwner env acc a).1) g

/-- Core retry loop shared by `requestAirdropWithRetry` (source lines
169-192) and the hardcoded read-retry loops of the poll (source lines
829-837 and 844-853).  `op i` is the outcome of the 0-based attempt `i`,
and `sleep i` the delay slept after attempt `i` fails while attempts
remain.  The result carries the final outcome together with the list of
delays slept.  The fuel-0 branch mirrors the unreachable throw after the
source's airdrop loop. -/
def retryLoop {α : Type} (op : Nat → Except String α) (sleep : Nat → Nat) :
    Nat → Nat → Except String α × List Nat
  | _, 0 => (.error "Airdrop failed after all retries.", [])
  | attempt, remaining + 1 =>
    match op attempt with
    | .ok v => (.ok v, [])
    | .error e =>
      if remaining = 0 then (.error e, [])
      else
        let r := retryLoop op sleep (attempt + 1) remaining
        (r.1, sleep attempt :: r.2)

/-- Retry wrapper for airdrops (`requestAirdropWithRetry`), with
exponential backoff: after the failed 0-based attempt `a` it sleeps
`delayMs * 2 ^ a` (the source's `delayMs * 2 ^ (attempt - 1)` for 1-based
attempts).  The source's default arguments are `retries = 3` and
`delayMs = 2000`. -/
def requestAirdropWithRetry {α : Type} (op : Nat → Except String α)
    (retries delayMs : Nat) : Except String α × List Nat :=
  retryLoop op (fun a => delayMs * 2 ^ a) 0 retries

/-- Hardcoded read retry used for the balance and signature fetches of the
poll: three attempts against the primary endpoint, with a fixed 2000 ms
delay between attempts and no failover. -/
def readFetchRetry {α : Type} (op : Nat → Except String α) :
    Except String α × List Nat :=
  retryLoop op (fun _ => 2000) 0 3

/-- Airdrop with endpoint failover (source lines 393-400): run the full
retry budget against the primary endpoint; only if that exhausts, run the
full budget once against the fallback, whose outcome is final. -/
def requestTokensAirdrop (primary fallback : Nat → Except String String) :
    Except String String :=
  match (requestAirdropWithRetry primary 3 2000).1 with
  | .ok sig => .ok sig
  | .error _ => (requestAirdropWithRetry fallback 3 2000).1

/-- Outcome of one faucet request. -/
inductive FaucetOutcome where
  | rateLimited (minutes : Int)
  | success (sig : String)
  | failure (err : String)
deriving DecidableEq

/-- Faucet handler (source lines 363-440): initialise a missing state,
enforce at most one request per 3600 s per owner — replying with the
remaining wait rounded up to whole minutes — and otherwise run the airdrop
with retry and failover; only a successful airdrop stores
`lastFaucetTime := now`.  `now` is the current epoch time in
milliseconds. -/
def requestTokens (primary fallback : Nat → Except String String) (g : GState)
    (uid : Nat) (now : ℚ) : FaucetOutcome × GState :=
  let g1 := ensureState g uid defaultFaucetState
  let state := (g1.states uid).getD defaultFaucetState
  let timeSince := (now - state.lastFaucetTime.getD 0) / 1000
  if timeSince < 3600 then
    (.rateLimited ⌈(3600 - timeSince) / 60⌉, g1)
  else
    match requestTokensAirdrop primary fallback with
    | .ok sig => (.success sig, setState g1 uid { state with lastFaucetTime := some now })
    | .error e => (.failure e, g1)

/-- Outcome of one text message while a wallet import is pending. -/
inductive ImportOutcome where
  | ignored
  | invalidKey
  | imported (publicKey : String)
deriving DecidableEq

/-- Wallet-import handler (source lines 312-360), with the base58 decoder
and the public-key derivation of the external libraries passed in as
functions; `decode` returns `none` where `bs58.decode` throws.  The text
is handled only while an import is pending and only when it starts with
`dev` or is longer than 80 characters; it is then trimmed, decoded,
length-checked (exactly 64 bytes) and stored, overwriting any prior
record for the owner.  Any other text leaves the handler without effect
on the registries and without an error reply.  The `dev`-prefix test of
the source is expressed on the underlying character list. -/
def importWallet (decode : String → Option (List Nat)) (derive : List Nat → String)
    (g : GState) (uid : Nat) (waiting : Bool) (text : String) :
    ImportOutcome × GState :=
  if waiting && (List.isPrefixOf "dev".data text.data || decide (80 < text.length)) then
    match decode text.trim with
    | none => (.invalidKey, g)
    | some sk =>
      if sk.length = 64 then
        (.imported (derive sk),
         { g with wallets := fun b =>
             if b = uid then some { publicKey := derive sk, privateKey := text.trim }
             else g.wallets b })
      else (.invalidKey, g)
  else (.ignored, g)

/-! ### Helper lemmas -/

theorem toFixedRepr_eq_iff (x y : ℚ) :
    toFixedRepr x = toFixedRepr y ↔ toFixed4 x = toFixed4 y := by
  unfold toFixedRepr
  constructor
  · intro h
    have h1 : toFixed4 x / 10000 = toFixed4 y / 10000 := congrArg Prod.fst h
    have h2 : toFixed4 x % 10000 = toFixed4 y % 10000 := congrArg Prod.snd h
    omega
  · intro h
    rw [h]

theorem map_structuralProj_eq_of_forall2 (ps qs : List PositionData)
    (h : List.Forall₂ (fun p q => p.pool = q.pool ∧ p.lowerBin = q.lowerBin ∧
      p.upperBin = q.upperBin ∧ p.liquidity = q.liquidity) ps qs) :
    ps.map structuralProj = qs.map structuralProj := by
  induction h with
  | nil => rfl
  | cons h _ ih =>
    obtain ⟨h1, h2, h3, h4⟩ := h
    simp only [List.map_cons, ih, List.cons.injEq, and_true]
    simp [structuralProj, h1, h2, h3, h4]

theorem signatureAlert_iff (old : UserState) (bal : ℚ) (ps : List PositionData)
    (sigs : List String) :
    (diffSnapshot old bal ps sigs).signatureAlert = true ↔
      ∃ s ∈ sigs, s ∉ old.lastSignatures := by
  simp [diffSnapshot, List.any_eq_true]

/-! ### Claims about the change detector -/

/-- Claim C1: the reconciliation poll reports `balanceChanged` exactly when
the old and new balances differ once each is formatted with `toFixed(4)`,
i.e. rounded to four decimal places; in particular `1.00004` versus
`1.00009` is reported as changed, while `1.000041` versus `1.000044` is
not. -/
theorem claim_C1 :
    (∀ (old : UserState) (newBal : ℚ) (ps : List PositionData) (sigs : List String),
        0 ≤ old.lastBalance → 0 ≤ newBal →
        ((diffSnapshot old newBal ps sigs).balanceChanged = true ↔
          toFixed4 old.lastBalance ≠ toFixed4 newBal))
    ∧ (diffSnapshot { defaultPollState with lastBalance := 100004 / 100000 }
        (100009 / 100000) [] []).balanceChanged = true
    ∧ (diffSnapshot { defaultPollState with lastBalance := 1000041 / 1000000 }
        (1000044 / 1000000) [] []).balanceChanged = false := by
  refine ⟨fun old newBal ps sigs _ _ => ?_, ?_, ?_⟩
  · simp only [diffSnapshot, decide_eq_true_eq]
    exact not_congr (toFixedRepr_eq_iff _ _)
  · have h1 : toFixed4 (100004 / 100000 : ℚ) = 10000 := by
      norm_num [toFixed4, Int.floor_eq_iff]
    have h2 : toFixed4 (100009 / 100000 : ℚ) = 10001 := by
      norm_num [toFixed4, Int.floor_eq_iff]
    simp [diffSnapshot, toFixedRepr, h1, h2]
  · have h1 : toFixed4 (1000041 / 1000000 : ℚ) = 10000 := by
      norm_num [toFixed4, Int.floor_eq_iff]
    have h2 : toFixed4 (1000044 / 1000000 : ℚ) = 10000 := by
      norm_num [toFixed4, Int.floor_eq_iff]
    simp [diffSnapshot, toFixedRepr, h1, h2]

/-- Instantiation of claim C1 at a concrete snapshot pair. -/
theorem claim_C1_witness :
    (0 : ℚ) ≤ defaultPollState.lastBalance ∧ (0 : ℚ) ≤ 3 ∧
    ((diffSnapshot defaultPollState 3 [] []).balanceChanged = true ↔
      toFixed4 defaultPollState.lastBalance ≠ toFixed4 3) :=
  ⟨by decide, by decide, claim_C1.1 defaultPollState 3 [] [] (by decide) (by decide)⟩

/-- Claim C2: the reconciliation poll reports `positionsChanged` exactly
when the structural projections (pool, lowerBin, upperBin, liquidity) of
the two position lists, in list order and excluding `feesEarned`, differ;
hence lists that agree on everything but `feesEarned` are unchanged, while
a differing `lowerBin` or `liquidity` at any shared index makes them
changed. -/
theorem claim_C2 :
    (∀ (old : UserState) (bal : ℚ) (ps : List PositionData) (sigs : List String),
        ((diffSnapshot old bal ps sigs).positionsChanged = true ↔
          ps.map structuralProj ≠ old.lastPositions.map structuralProj))
    ∧ (∀ (old : UserState) (bal : ℚ) (ps : List PositionData) (sigs : List String),
        List.Forall₂ (fun p q => p.pool = q.pool ∧ p.lowerBin = q.lowerBin ∧
          p.upperBin = q.upperBin ∧ p.liquidity = q.liquidity)
          old.lastPositions ps →
        (diffSnapshot old bal ps sigs).positionsChanged = false)
    ∧ (∀ (old : UserState) (bal : ℚ) (ps : List PositionData) (sigs : List String)
        (i : Nat) (h1 : i < ps.length) (h2 : i < old.lastPositions.length),
        (ps.get ⟨i, h1⟩).lowerBin ≠ (old.lastPositions.get ⟨i, h2⟩).lowerBin →
        (diffSnapshot old bal ps sigs).positionsChanged = true)
    ∧ (∀ (old : UserState) (bal : ℚ) (ps : List PositionData) (sigs : List String)
        (i : Nat) (h1 : i < ps.length) (h2 : i < old.lastPositions.length),
        (ps.get ⟨i, h1⟩).liquidity ≠ (old.lastPositions.get ⟨i, h2⟩).liquidity →
        (diffSnapshot old bal ps sigs).positionsChanged = true) := by
  refine ⟨fun old bal ps sigs => ?_, fun old bal ps sigs h => ?_,
    fun old bal ps sigs i h1 h2 hne => ?_, fun old bal ps sigs i h1 h2 hne => ?_⟩
  · simp only [diffSnapshot, decide_eq_true_eq]
  · simp only [diffSnapshot, decide_eq_false_iff_not, not_not]
    exact (map_structuralProj_eq_of_forall2 _ _ h).symm
  · simp only [diffSnapshot, decide_eq_true_eq, List.get_eq_getElem]
    intro heq
    have hcol := congrArg (fun l => l[i]?) heq
    simp only [List.getElem?_map, List.getElem?_eq_getElem h1,
      List.getElem?_eq_getElem h2, Option.map_some'] at hcol
    simp only [structuralProj, Prod.mk.injEq, Option.some.injEq] at hcol
    exact hne (by simp [List.get_eq_getElem, hcol.2.1])
  · simp only [diffSnapshot, decide_eq_true_eq, List.get_eq_getElem]
    intro heq
    have hcol := congrArg (fun l => l[i]?) heq
    simp only [List.getElem?_map, List.getElem?_eq_getElem h1,
      List.getElem?_eq_getElem h2, Option.map_some'] at hcol
    simp only [structuralProj, Prod.mk.injEq, Option.some.injEq] at hcol
    exact hne (by simp [List.get_eq_getElem, hcol.2.2.2])

/-- Instantiation of claim C2: lists that differ only in `feesEarned` are
reported unchanged, and a `lowerBin` change is reported. -/
theorem claim_C2_witness :
    (diffSnapshot { defaultPollState with
        lastPositions := [⟨"pool1", 1, 2, 5, 0⟩] } 0 [⟨"pool1", 1, 2, 5, 9⟩]
        []).positionsChanged = false
    ∧ (diffSnapshot { defaultPollState with
        lastPositions := [⟨"pool1", 1, 2, 5, 0⟩] } 0 [⟨"pool1", 3, 2, 5, 0⟩]
        []).positionsChanged = true :=
  ⟨claim_C2.2.1 _ 0 _ [] (List.Forall₂.cons ⟨rfl, rfl, rfl, rfl⟩ List.Forall₂.nil),
   claim_C2.2.2.1 _ 0 _ [] 0 (by decide) (by decide) (by decide)⟩

/-- Claim C3: a signature alert is raised exactly when the set of new
signatures — the elements of the current list absent from the stored list,
membership by string equality and independent of list order — is
non-empty; on `old = [a, b, c]`, `new = [d, a, b]` that set is `{d}` and
the alert fires. -/
theorem claim_C3 :
    (∀ (old : UserState) (bal : ℚ) (ps : List PositionData) (sigs : List String),
        ((diffSnapshot old bal ps sigs).signatureAlert = true ↔
          newSignatureSet old.lastSignatures sigs ≠ ∅))
    ∧ (∀ (oldSigs newSigs : List String) (s : String),
        s ∈ newSignatureSet oldSigs newSigs ↔ s ∈ newSigs ∧ s ∉ oldSigs)
    ∧ (∀ (o o2 n n2 : List String), List.Perm o o2 → List.Perm n n2 →
        newSignatureSet o n = newSignatureSet o2 n2)
    ∧ newSignatureSet ["a", "b", "c"] ["d", "a", "b"] = {"d"}
    ∧ (diffSnapshot { defaultPollState with lastSignatures := ["a", "b", "c"] }
        0 [] ["d", "a", "b"]).signatureAlert = true := by
  refine ⟨fun old bal ps sigs => ?_, fun oldSigs newSigs s => ?_,
    fun o o2 n n2 h1 h2 => ?_, by decide, by decide⟩
  · rw [signatureAlert_iff, ← Finset.nonempty_iff_ne_empty]
    simp [Finset.Nonempty, newSignatureSet]
  · simp [newSignatureSet]
  · unfold newSignatureSet
    rw [List.toFinset_eq_of_perm _ _ h1, List.toFinset_eq_of_perm _ _ h2]

/-- Instantiation of claim C3's order-independence at concrete lists. -/
theorem claim_C3_witness :
    newSignatureSet ["a", "b"] ["c", "a"] = newSignatureSet ["b", "a"] ["a", "c"] :=
  claim_C3.2.2.1 ["a", "b"] ["b", "a"] ["c", "a"] ["a", "c"]
    (List.Perm.swap "b" "a" []) (List.Perm.swap "a" "c" [])

/-! ### Registry and cycle helper lemmas -/

theorem setState_states_ne (g : GState) (uid : Nat) (s : UserState) (b : Nat)
    (h : b ≠ uid) : (setState g uid s).states b = g.states b := by
  simp [setState, h]

theorem setState_wallets (g : GState) (uid : Nat) (s : UserState) :
    (setState g uid s).wallets = g.wallets := rfl

theorem ensureState_eq_of_some (g : GState) (uid : Nat) (d s : UserState)
    (h : g.states uid = some s) : ensureState g uid d = g := by
  unfold ensureState
  rw [h]

theorem ensureState_states_self (g : GState) (uid : Nat) (d : UserState) :
    (ensureState g uid d).states uid = some ((g.states uid).getD d) := by
  unfold ensureState
  cases h : g.states uid <;> simp [setState, h]

theorem ensureState_states_ne (g : GState) (uid : Nat) (d : UserState) (b : Nat)
    (h : b ≠ uid) : (ensureState g uid d).states b = g.states b := by
  unfold ensureState
  cases g.states uid <;> simp [setState, h]

theorem ensureState_wallets (g : GState) (uid : Nat) (d : UserState) :
    (ensureState g uid d).wallets = g.wallets := by
  unfold ensureState
  cases g.states uid <;> rfl

theorem processOwner_eq_ok (env : Env) (g : GState) (uid : Nat) (bal : ℚ)
    (ps : List PositionData) (sigs : List String)
    (hb : env.getBalance uid = .ok bal) (hp : env.getPositions uid = .ok ps)
    (hs : env.getSignatures uid = .ok sigs) :
    processOwner env g uid =
      (setState (ensureState g uid defaultPollState) uid
        { ((ensureState g uid defaultPollState).states uid).getD defaultPollState with
            lastBalance := bal, lastPositions := ps, lastSignatures := sigs },
       some (diffSnapshot
         (((ensureState g uid defaultPollState).states uid).getD defaultPollState)
         bal ps sigs)) := by
  unfold processOwner
  rw [hb, hp, hs]

theorem processOwner_eq_fail (env : Env) (g : GState) (uid : Nat)
    (h : fetchOk env uid = false) :
    processOwner env g uid = (ensureState g uid defaultPollState, none) := by
  unfold fetchOk at h
  unfold processOwner
  cases hb : env.getBalance uid <;> cases hp : env.getPositions uid <;>
    cases hs : env.getSignatures uid <;> simp_all

theorem processOwner_states_ne (env : Env) (g : GState) (uid b : Nat)
    (h : b ≠ uid) : ((processOwner env g uid).1).states b = g.states b := by
  unfold processOwner
  cases env.getBalance uid <;> cases env.getPositions uid <;>
    cases env.getSignatures uid <;>
    simp [setState_states_ne _ _ _ _ h, ensureState_states_ne _ _ _ _ h]

theorem processOwner_wallets (env : Env) (g : GState) (uid : Nat) :
    ((processOwner env g uid).1).wallets = g.wallets := by
  unfold processOwner
  cases env.getBalance uid <;> cases env.getPositions uid <;>
    cases env.getSignatures uid <;>
    simp [setState_wallets, ensureState_wallets]

theorem processOwner_states_self (env : Env) (g : GState) (uid : Nat) :
    ((processOwner env g uid).1).states uid =
      some (ownerStepState env (g.states uid) uid) := by
  unfold processOwner ownerStepState
  cases hb : env.getBalance uid <;> cases hp : env.getPositions uid <;>
    cases hs : env.getSignatures uid <;>
    simp [setState, ensureState_states_self]

theorem runCycle_cons (env : Env) (g : GState) (c : Nat) (rest : List Nat) :
    runCycle env g (c :: rest) = runCycle env (processOwner env g c).1 rest := rfl

theorem runCycle_states_congr (env : Env) (a : Nat) :
    ∀ (owners : List Nat) (g g2 : GState),
      (∀ c, c ≠ a → g.states c = g2.states c) →
      ∀ b, b ≠ a → (runCycle env g owners).states b = (runCycle env g2 owners).states b := by
  intro owners
  induction owners with
  | nil => intro g g2 hag b hb; exact hag b hb
  | cons c rest ih =>
    intro g g2 hag b hb
    rw [runCycle_cons, runCycle_cons]
    refine ih (processOwner env g c).1 (processOwner env g2 c).1 ?_ b hb
    intro d hd
    by_cases hdc : d = c
    · subst hdc
      rw [processOwner_states_self, processOwner_states_self, hag d hd]
    · rw [processOwner_states_ne env g c d hdc, processOwner_states_ne env g2 c d hdc]
      exact hag d hd

theorem runCycle_states_preserved (env : Env) (a : Nat) (s : UserState)
    (hfail : fetchOk env a = false) :
    ∀ (owners : List Nat) (g : GState), g.states a = some s →
      (runCycle env g owners).states a = some s := by
  intro owners
  induction owners with
  | nil => intro g h; exact h
  | cons c rest ih =>
    intro g h
    rw [runCycle_cons]
    apply ih
    by_cases hca : c = a
    · subst hca
      rw [processOwner_eq_fail env g c hfail]
      show (ensureState g c defaultPollState).states c = some s
      rw [ensureState_eq_of_some g c defaultPollState s h]
      exact h
    · rw [processOwner_states_ne env g c a fun hac => hca hac.symm]
      exact h

/-! ### Claims about the reconciliation scheduler -/

/-- Claim C4: an owner whose fetches fail (after the fetches' own retry
handling) has its remaining steps skipped for the cycle — the cycle
continues with the rest of the owner list and the failing owner's stored
snapshot is untouched — and every other owner's resulting snapshot is
exactly what it would have been had the failing owner not been in the
list; the failure is absorbed at the per-owner boundary, never aborting
the cycle. -/
theorem claim_C4 :
    (∀ (env : Env) (g : GState) (a : Nat) (rest : List Nat),
        fetchOk env a = false →
        runCycle env g (a :: rest) = runCycle env (ensureState g a defaultPollState) rest)
    ∧ (∀ (env : Env) (g : GState) (owners : List Nat) (a : Nat) (s : UserState),
        fetchOk env a = false → g.states a = some s →
        (runCycle env g owners).states a = some s)
    ∧ (∀ (env : Env) (g : GState) (a : Nat) (rest : List Nat) (b : Nat),
        fetchOk env a = false → b ≠ a →
        (runCycle env g (a :: rest)).states b = (runCycle env g rest).states b) := by
  refine ⟨fun env g a rest h => ?_,
    fun env g owners a s h1 h2 => runCycle_states_preserved env a s h1 owners g h2,
    fun env g a rest b h hb => ?_⟩
  · rw [runCycle_cons, processOwner_eq_fail env g a h]
  · rw [runCycle_cons, processOwner_eq_fail env g a h]
    exact runCycle_states_congr env a rest (ensureState g a defaultPollState) g
      (fun c hc => ensureState_states_ne g a defaultPollState c hc) b hb

/-- Instantiation of claim C4: with the balance fetch failing for owner 1,
a cycle over owners `[1, 2]` leaves owner 1's stored snapshot unchanged. -/
theorem claim_C4_witness :
    fetchOk ⟨fun _ => .error "netfail", fun _ => .ok [], fun _ => .ok []⟩ 1 = false ∧
    GState.states
      (runCycle ⟨fun _ => .error "netfail", fun _ => .ok [], fun _ => .ok []⟩
        ⟨fun _ => none, fun u => if u = 1 then some defaultFaucetState else none⟩
        [1, 2]) 1 = some defaultFaucetState :=
  ⟨rfl, claim_C4.2.1 ⟨fun _ => .error "netfail", fun _ => .ok [], fun _ => .ok []⟩
    ⟨fun _ => none, fun u => if u = 1 then some defaultFaucetState else none⟩
    [1, 2] 1 defaultFaucetState rfl rfl⟩

/-- Claim C9 (amended): the first time an owner is seen by the poll its diff
baseline is the zero snapshot, so a first cycle observing empty positions
and signatures raises neither a positions nor a signatures alert, and it
raises a balance alert exactly when the first observed balance rounds, at
four decimal places, to a value different from zero (not merely when it is
non-zero: a first balance below the 4-decimal rounding grain raises no
alert, see the counterexample). -/
theorem claim_C9 (env : Env) (g : GState) (uid : Nat) (b : ℚ)
    (h0 : g.states uid = none) (hb : env.getBalance uid = .ok b)
    (hp : env.getPositions uid = .ok []) (hs : env.getSignatures uid = .ok []) :
    (processOwner env g uid).2 =
      some { balanceChanged := decide (toFixed4 b ≠ 0)
             positionsChanged := false
             signatureAlert := false } := by
  have hstate : ((ensureState g uid defaultPollState).states uid).getD defaultPollState
      = defaultPollState := by
    rw [ensureState_states_self, h0]
    rfl
  rw [processOwner_eq_ok env g uid b [] [] hb hp hs]
  show some _ = some _
  rw [hstate]
  have h40 : toFixed4 (0 : ℚ) = 0 := by norm_num [toFixed4]
  have hiff : (toFixedRepr (0 : ℚ) ≠ toFixedRepr b) ↔ toFixed4 b ≠ 0 := by
    rw [ne_eq, toFixedRepr_eq_iff, h40, ne_eq, eq_comm]
  simp only [diffSnapshot]
  congr 1
  congr 1
  exact decide_eq_decide.mpr hiff

/-- Instantiation of claim C9 at a concrete first observation. -/
theorem claim_C9_witness :
    (processOwner ⟨fun _ => .ok 5, fun _ => .ok [], fun _ => .ok []⟩
        ⟨fun _ => none, fun _ => none⟩ 3).2 =
      some { balanceChanged := decide (toFixed4 5 ≠ 0)
             positionsChanged := false
             signatureAlert := false } :=
  claim_C9 ⟨fun _ => .ok 5, fun _ => .ok [], fun _ => .ok []⟩
    ⟨fun _ => none, fun _ => none⟩ 3 5 rfl rfl rfl rfl

/-- Counterexample to claim C9 as stated: a new owner whose first observed
balance is the non-zero `1 / 25000 = 0.00004` raises no balance-changed
alert, because `0.00004` and the zero baseline both format to `0.0000`
under `toFixed(4)`. -/
theorem claim_C9_counterexample :
    (processOwner ⟨fun _ => .ok (1 / 25000), fun _ => .ok [], fun _ => .ok []⟩
        ⟨fun _ => none, fun _ => none⟩ 3).2 =
      some { balanceChanged := false, positionsChanged := false, signatureAlert := false }
    ∧ (1 / 25000 : ℚ) ≠ 0 := by
  constructor
  · have hev : (processOwner ⟨fun _ => .ok (1 / 25000), fun _ => .ok [], fun _ => .ok []⟩
        ⟨fun _ => none, fun _ => none⟩ 3).2 =
        some (diffSnapshot defaultPollState (1 / 25000) [] []) := rfl
    have h4 : toFixed4 (1 / 25000 : ℚ) = 0 := by norm_num [toFixed4, Int.floor_eq_iff]
    have h0 : toFixed4 (0 : ℚ) = 0 := by norm_num [toFixed4]
    have hrepr : toFixedRepr (0 : ℚ) = toFixedRepr (1 / 25000 : ℚ) :=
      (toFixedRepr_eq_iff _ _).mpr (by rw [h0, h4])
    rw [hev]
    simp [diffSnapshot, defaultPollState, hrepr]
  · norm_num

/-- Claim C10: the per-owner reconciliation step writes only the processed
owner's snapshot entry, and the faucet handler writes only the requesting
owner's entry; every other owner's snapshot, and the whole wallet
registry, are left unchanged by both operations. -/
theorem claim_C10 :
    (∀ (env : Env) (g : GState) (a b : Nat), b ≠ a →
        ((processOwner env g a).1).states b = g.states b)
    ∧ (∀ (env : Env) (g : GState) (a : Nat),
        ((processOwner env g a).1).wallets = g.wallets)
    ∧ (∀ (primary fallback : Nat → Except String String) (g : GState)
        (uid : Nat) (now : ℚ) (b : Nat), b ≠ uid →
        ((requestTokens primary fallback g uid now).2).states b = g.states b)
    ∧ (∀ (primary fallback : Nat → Except String String) (g : GState)
        (uid : Nat) (now : ℚ),
        ((requestTokens primary fallback g uid now).2).wallets = g.wallets) := by
  refine ⟨fun env g a b h => processOwner_states_ne env g a b h,
    fun env g a => processOwner_wallets env g a,
    fun p f g uid now b h => ?_, fun p f g uid now => ?_⟩
  · unfold requestTokens
    dsimp only
    split
    · exact ensureState_states_ne g uid defaultFaucetState b h
    · split
      · rw [setState_states_ne _ _ _ _ h, ensureState_states_ne _ _ _ _ h]
      · exact ensureState_states_ne g uid defaultFaucetState b h
  · unfold requestTokens
    dsimp only
    split
    · exact ensureState_wallets g uid defaultFaucetState
    · split
      · rw [setState_wallets, ensureState_wallets]
      · exact ensureState_wallets g uid defaultFaucetState

/-- Instantiation of claim C10: neither operation touches owner 2 while
acting for owner 1. -/
theorem claim_C10_witness :
    ((processOwner ⟨fun _ => .ok 0, fun _ => .ok [], fun _ => .ok []⟩
        ⟨fun _ => none, fun _ => none⟩ 1).1).states 2 = none ∧
    ((requestTokens (fun _ => .ok "sig") (fun _ => .ok "sig")
        ⟨fun _ => none, fun _ => none⟩ 1 0).2).states 2 = none :=
  ⟨claim_C10.1 ⟨fun _ => .ok 0, fun _ => .ok [], fun _ => .ok []⟩
      ⟨fun _ => none, fun _ => none⟩ 1 2 (by decide),
   claim_C10.2.2.1 (fun _ => .ok "sig") (fun _ => .ok "sig")
      ⟨fun _ => none, fun _ => none⟩ 1 0 2 (by decide)⟩

/-! ### Retry-loop lemmas -/

theorem retryLoop_succ {α : Type} (op : Nat → Except String α) (sleep : Nat → Nat)
    (attempt remaining : Nat) :
    retryLoop op sleep attempt (remaining + 1) =
      match op attempt with
      | .ok v => (.ok v, [])
      | .error err =>
        if remaining = 0 then (.error err, [])
        else
          ((retryLoop op sleep (attempt + 1) remaining).1,
           sleep attempt :: (retryLoop op sleep (attempt + 1) remaining).2) := rfl

theorem retryLoop_all_fail {α : Type} (op : Nat → Except String α) (sleep : Nat → Nat)
    (e : Nat → String) :
    ∀ (N start : Nat), 1 ≤ N →
      (∀ i, start ≤ i → i < start + N → op i = .error (e i)) →
      retryLoop op sleep start N =
        (.error (e (start + N - 1)), (List.range' start (N - 1)).map sleep) := by
  intro N
  induction N with
  | zero => intro start h _; omega
  | succ n ih =>
    intro start _ hfail
    have h0 : op start = .error (e start) := hfail start (Nat.le_refl start) (by omega)
    rw [retryLoop_succ, h0]
    cases n with
    | zero => simp
    | succ m =>
      dsimp only
      rw [if_neg (Nat.succ_ne_zero m)]
      have hrec := ih (start + 1) (by omega)
        (fun i h1 h2 => hfail i (by omega) (by omega))
      rw [hrec]
      have h1 : start + 1 + (m + 1) - 1 = start + (m + 1 + 1) - 1 := by omega
      rw [h1]
      have h2 : List.range' start (m + 1 + 1 - 1) = start :: List.range' (start + 1) (m + 1 - 1) :=
        List.range'_succ start (m + 1 - 1) 1
      rw [h2]
      rfl

theorem retryLoop_first_ok {α : Type} (op : Nat → Except String α) (sleep : Nat → Nat)
    (e : Nat → String) (v : α) :
    ∀ (k N start : Nat), k < N →
      (∀ i, start ≤ i → i < start + k → op i = .error (e i)) →
      op (start + k) = .ok v →
      retryLoop op sleep start N = (.ok v, (List.range' start k).map sleep) := by
  intro k
  induction k with
  | zero =>
    intro N start hkN hfail hok
    cases N with
    | zero => omega
    | succ n =>
      rw [Nat.add_zero] at hok
      rw [retryLoop_succ, hok]
      rfl
  | succ j ih =>
    intro N start hkN hfail hok
    cases N with
    | zero => omega
    | succ n =>
      have h0 : op start = .error (e start) := hfail start (Nat.le_refl start) (by omega)
      rw [retryLoop_succ, h0]
      dsimp only
      rw [if_neg (show n ≠ 0 by omega)]
      have hrec := ih n (start + 1) (by omega)
        (fun i h1 h2 => hfail i (by omega) (by omega))
        (by rw [show start + 1 + j = start + (j + 1) from by omega]; exact hok)
      rw [hrec, List.range'_succ]
      rfl

theorem retryLoop_congr {α : Type} (sleep : Nat → Nat) :
    ∀ (N start : Nat) (op op2 : Nat → Except String α),
      (∀ i, start ≤ i → i < start + N → op i = op2 i) →
      retryLoop op sleep start N = retryLoop op2 sleep start N := by
  intro N
  induction N with
  | zero => intro start op op2 h; rfl
  | succ n ih =>
    intro start op op2 h
    rw [retryLoop_succ, retryLoop_succ, h start (Nat.le_refl start) (by omega)]
    cases op2 start with
    | ok v => rfl
    | error err =>
      cases n with
      | zero => rfl
      | succ m =>
        dsimp only
        rw [ih (start + 1) op op2 (fun i h1 h2 => h i (by omega) (by omega))]

theorem range'_map_pow (D k : Nat) :
    (List.range' 0 k).map (fun a => D * 2 ^ a) = (List.range k).map fun i => D * 2 ^ i := by
  rw [List.range_eq_range']

theorem range'_map_const (c : Nat) :
    ∀ (k s : Nat), (List.range' s k).map (fun _ => c) = List.replicate k c := by
  intro k
  induction k with
  | zero => intro s; rfl
  | succ n ih => intro s; rw [List.range'_succ, List.map_cons, ih, List.replicate_succ]

/-! ### Claims about retry and failover -/

/-- Claim C5: the airdrop retry wrapper runs its operation at most `N`
times (the source default is 3), sleeping `D * 2 ^ (attempt - 1)` between
failed 1-based attempts, while the hardcoded read retry runs at most 3
attempts with a fixed 2000 ms sleep; in both, an attempt's success is
returned immediately and, when every attempt fails, the last error is
propagated unchanged. -/
theorem claim_C5 (α : Type) :
    (∀ (op : Nat → Except String α) (N D : Nat) (e : Nat → String) (v : α) (k : Nat),
        k < N → (∀ i, i < k → op i = .error (e i)) → op k = .ok v →
        requestAirdropWithRetry op N D = (.ok v, (List.range k).map fun i => D * 2 ^ i))
    ∧ (∀ (op : Nat → Except String α) (N D : Nat) (e : Nat → String),
        1 ≤ N → (∀ i, i < N → op i = .error (e i)) →
        requestAirdropWithRetry op N D =
          (.error (e (N - 1)), (List.range (N - 1)).map fun i => D * 2 ^ i))
    ∧ (∀ (op : Nat → Except String α) (e : Nat → String) (v : α) (k : Nat),
        k < 3 → (∀ i, i < k → op i = .error (e i)) → op k = .ok v →
        readFetchRetry op = (.ok v, List.replicate k 2000))
    ∧ (∀ (op : Nat → Except String α) (e : Nat → String),
        (∀ i, i < 3 → op i = .error (e i)) →
        readFetchRetry op = (.error (e 2), List.replicate 2 2000)) := by
  refine ⟨fun op N D e v k hk hf hok => ?_, fun op N D e hN hf => ?_,
    fun op e v k hk hf hok => ?_, fun op e hf => ?_⟩
  · unfold requestAirdropWithRetry
    rw [retryLoop_first_ok op _ e v k N 0 hk (fun i _ h2 => hf i (by omega))
      (by simpa using hok), range'_map_pow]
  · unfold requestAirdropWithRetry
    rw [retryLoop_all_fail op _ e N 0 hN (fun i _ h2 => hf i (by omega))]
    rw [show (0 + N - 1) = N - 1 from by omega, range'_map_pow]
  · unfold readFetchRetry
    rw [retryLoop_first_ok op _ e v k 3 0 hk (fun i _ h2 => hf i (by omega))
      (by simpa using hok), range'_map_const]
  · unfold readFetchRetry
    rw [retryLoop_all_fail op _ e 3 0 (by omega) (fun i _ h2 => hf i (by omega))]
    rw [range'_map_const]

/-- Instantiation of claim C5: a read retry whose three attempts all fail
surfaces the last error after two fixed 2000 ms sleeps. -/
theorem claim_C5_witness :
    readFetchRetry (fun _ => (Except.error "boom" : Except String ℚ)) =
      (.error "boom", List.replicate 2 2000) :=
  (claim_C5 ℚ).2.2.2 (fun _ => .error "boom") (fun _ => "boom") (fun _ _ => rfl)

/-- Claim C6: endpoint failover exists only on the airdrop path — after the
primary endpoint's full retry budget is exhausted, a full budget is run
once against the fallback, whose success is returned as is (and the
primary is consulted only for its first three attempts, so it is never
re-attempted after the fallback), while the read retry runs against a
single endpoint and surfaces exhaustion instead of failing over. -/
theorem claim_C6 :
    (∀ (p f : Nat → Except String String) (e : Nat → String) (v : String),
        (∀ i, i < 3 → p i = .error (e i)) → f 0 = .ok v →
        requestTokensAirdrop p f = .ok v)
    ∧ (∀ (p p2 f : Nat → Except String String),
        (∀ i, i < 3 → p i = p2 i) →
        requestTokensAirdrop p f = requestTokensAirdrop p2 f)
    ∧ (∀ (p f : Nat → Except String String) (e e2 : Nat → String),
        (∀ i, i < 3 → p i = .error (e i)) → (∀ i, i < 3 → f i = .error (e2 i)) →
        requestTokensAirdrop p f = .error (e2 2))
    ∧ (∀ (op : Nat → Except String ℚ) (e : Nat → String),
        (∀ i, i < 3 → op i = .error (e i)) →
        (readFetchRetry op).1 = .error (e 2)) := by
  refine ⟨fun p f e v hp hf => ?_, fun p p2 f hp => ?_, fun p f e e2 hp hf => ?_,
    fun op e hop => ?_⟩
  · unfold requestTokensAirdrop requestAirdropWithRetry
    rw [retryLoop_all_fail p _ e 3 0 (by omega) (fun i _ h2 => hp i (by omega))]
    dsimp only
    rw [retryLoop_first_ok f _ (fun _ => "") v 0 3 0 (by omega)
      (fun i _ h2 => absurd h2 (by omega)) (by simpa using hf)]
  · unfold requestTokensAirdrop requestAirdropWithRetry
    rw [retryLoop_congr _ 3 0 p p2 (fun i _ h2 => hp i (by omega))]
  · unfold requestTokensAirdrop requestAirdropWithRetry
    rw [retryLoop_all_fail p _ e 3 0 (by omega) (fun i _ h2 => hp i (by omega))]
    dsimp only
    rw [retryLoop_all_fail f _ e2 3 0 (by omega) (fun i _ h2 => hf i (by omega))]
  · unfold readFetchRetry
    rw [retryLoop_all_fail op _ e 3 0 (by omega) (fun i _ h2 => hop i (by omega))]

/-- Instantiation of claim C6: with the primary down and the fallback
succeeding immediately, the fallback's signature is returned. -/
theorem claim_C6_witness :
    requestTokensAirdrop (fun _ => .error "down") (fun _ => .ok "fbsig") = .ok "fbsig" :=
  claim_C6.1 (fun _ => .error "down") (fun _ => .ok "fbsig")
    (fun _ => "down") "fbsig" (fun _ _ => rfl) rfl

/-! ### Claims about the faucet limiter and wallet import -/

/-- Claim C7: a faucet request inside the 3600 s window is rejected with
the remaining wait rounded up to whole minutes and leaves the owner's
stored state untouched; a request whose airdrop fails after retry and
failover propagates the error without updating `lastFaucetTime`; only a
successful request stores `lastFaucetTime := now` — hence of two requests
within 3600 s, the first (whose airdrop succeeds) succeeds and the second
is rate-limited, leaving `lastFaucetTime` at the first success. -/
theorem claim_C7 :
    (∀ (p f : Nat → Except String String) (g : GState) (uid : Nat) (now : ℚ)
        (s : UserState), g.states uid = some s →
        (now - s.lastFaucetTime.getD 0) / 1000 < 3600 →
        requestTokens p f g uid now =
          (.rateLimited ⌈(3600 - (now - s.lastFaucetTime.getD 0) / 1000) / 60⌉, g))
    ∧ (∀ (p f : Nat → Except String String) (g : GState) (uid : Nat) (now : ℚ)
        (s : UserState) (err : String), g.states uid = some s →
        ¬ (now - s.lastFaucetTime.getD 0) / 1000 < 3600 →
        requestTokensAirdrop p f = .error err →
        requestTokens p f g uid now = (.failure err, g))
    ∧ (∀ (p f : Nat → Except String String) (g : GState) (uid : Nat) (now : ℚ)
        (s : UserState) (sig : String), g.states uid = some s →
        ¬ (now - s.lastFaucetTime.getD 0) / 1000 < 3600 →
        requestTokensAirdrop p f = .ok sig →
        requestTokens p f g uid now =
          (.success sig, setState g uid { s with lastFaucetTime := some now }))
    ∧ (∀ (p f p2 f2 : Nat → Except String String) (g : GState) (uid : Nat)
        (t0 t1 : ℚ) (s : UserState) (sig : String), g.states uid = some s →
        ¬ (t0 - s.lastFaucetTime.getD 0) / 1000 < 3600 →
        requestTokensAirdrop p f = .ok sig →
        (t1 - t0) / 1000 < 3600 →
        (requestTokens p f g uid t0).1 = .success sig
        ∧ (requestTokens p2 f2 (requestTokens p f g uid t0).2 uid t1).1 =
            .rateLimited ⌈(3600 - (t1 - t0) / 1000) / 60⌉
        ∧ ((requestTokens p2 f2 (requestTokens p f g uid t0).2 uid t1).2).states uid =
            some { s with lastFaucetTime := some t0 }) := by
  have hA : ∀ (p f : Nat → Except String String) (g : GState) (uid : Nat) (now : ℚ)
      (s : UserState), g.states uid = some s →
      (now - s.lastFaucetTime.getD 0) / 1000 < 3600 →
      requestTokens p f g uid now =
        (.rateLimited ⌈(3600 - (now - s.lastFaucetTime.getD 0) / 1000) / 60⌉, g) := by
    intro p f g uid now s h hlt
    unfold requestTokens
    rw [ensureState_eq_of_some g uid defaultFaucetState s h]
    dsimp only
    rw [h]
    simp only [Option.getD_some]
    rw [if_pos hlt]
  have hC : ∀ (p f : Nat → Except String String) (g : GState) (uid : Nat) (now : ℚ)
      (s : UserState) (sig : String), g.states uid = some s →
      ¬ (now - s.lastFaucetTime.getD 0) / 1000 < 3600 →
      requestTokensAirdrop p f = .ok sig →
      requestTokens p f g uid now =
        (.success sig, setState g uid { s with lastFaucetTime := some now }) := by
    intro p f g uid now s sig h hge hok
    unfold requestTokens
    rw [ensureState_eq_of_some g uid defaultFaucetState s h]
    dsimp only
    rw [h]
    simp only [Option.getD_some]
    rw [if_neg hge, hok]
  refine ⟨hA, fun p f g uid now s err h hge herr => ?_, hC,
    fun p f p2 f2 g uid t0 t1 s sig h hge hok hlt => ?_⟩
  · unfold requestTokens
    rw [ensureState_eq_of_some g uid defaultFaucetState s h]
    dsimp only
    rw [h]
    simp only [Option.getD_some]
    rw [if_neg hge, herr]
  · have h1 := hC p f g uid t0 s sig h hge hok
    have hstate1 : ((requestTokens p f g uid t0).2).states uid =
        some { s with lastFaucetTime := some t0 } := by
      rw [h1]
      simp [setState]
    have hcond : (t1 - ({ s with lastFaucetTime := some t0 } : UserState).lastFaucetTime.getD 0)
        / 1000 < 3600 := hlt
    have h2 := hA p2 f2 (requestTokens p f g uid t0).2 uid t1
      { s with lastFaucetTime := some t0 } hstate1 hcond
    exact ⟨by rw [h1], by rw [h2]; rfl, by rw [h2]; exact hstate1⟩

/-- Instantiation of claim C7's two-request scenario: with a stored state
whose `lastFaucetTime` is `0`, a first request at `t0 = 7200000` ms
succeeds and a second at `t1 = 7260000` ms is rate-limited with the
`lastFaucetTime` still at `t0`. -/
theorem claim_C7_witness :
    (requestTokens (fun _ => .ok "s0") (fun _ => .ok "s0")
        ⟨fun _ => none, fun u => if u = 5 then some defaultFaucetState else none⟩
        5 7200000).1 = .success "s0"
    ∧ (requestTokens (fun _ => .error "down") (fun _ => .error "down")
        ((requestTokens (fun _ => .ok "s0") (fun _ => .ok "s0")
          ⟨fun _ => none, fun u => if u = 5 then some defaultFaucetState else none⟩
          5 7200000).2) 5 7260000).1 =
        .rateLimited ⌈(3600 - ((7260000 : ℚ) - 7200000) / 1000) / 60⌉
    ∧ (((requestTokens (fun _ => .error "down") (fun _ => .error "down")
        ((requestTokens (fun _ => .ok "s0") (fun _ => .ok "s0")
          ⟨fun _ => none, fun u => if u = 5 then some defaultFaucetState else none⟩
          5 7200000).2) 5 7260000).2).states 5) =
        some { defaultFaucetState with lastFaucetTime := some 7200000 } :=
  claim_C7.2.2.2 (fun _ => .ok "s0") (fun _ => .ok "s0")
    (fun _ => .error "down") (fun _ => .error "down")
    ⟨fun _ => none, fun u => if u = 5 then some defaultFaucetState else none⟩
    5 7200000 7260000 defaultFaucetState "s0" rfl
    (by norm_num [defaultFaucetState]) rfl (by norm_num)

/-- Claim C8 (amended): while an import is pending, only texts accepted by
the handler's entry guard — starting with `dev` or longer than 80
characters — are treated as key imports: for those, a failed decode or a
decoded length other than 64 bytes yields the invalid-key error and
leaves the registries in place, while a decoded 64-byte key (whose base58
text is always longer than 80 characters) succeeds, stores the derived
public key overwriting any prior record for the owner and touching no
other owner's record, and re-importing the same text yields the same
outcome; a pending-import text rejected by the guard — e.g. the roughly
44-character base58 encoding of a 32-byte key — is silently ignored, with
no invalid-key error and no state change (see the counterexample). -/
theorem claim_C8 (decode : String → Option (List Nat)) (derive : List Nat → String)
    (g : GState) (uid : Nat) (text : String) :
    (decode text.trim = none →
      (List.isPrefixOf "dev".data text.data = true ∨ 80 < text.length) →
      importWallet decode derive g uid true text = (.invalidKey, g))
    ∧ (∀ sk, decode text.trim = some sk → sk.length ≠ 64 →
      (List.isPrefixOf "dev".data text.data = true ∨ 80 < text.length) →
      importWallet decode derive g uid true text = (.invalidKey, g))
    ∧ (∀ sk, decode text.trim = some sk → sk.length = 64 →
      (List.isPrefixOf "dev".data text.data = true ∨ 80 < text.length) →
      (importWallet decode derive g uid true text).1 = .imported (derive sk)
      ∧ ((importWallet decode derive g uid true text).2).wallets uid =
          some { publicKey := derive sk, privateKey := text.trim }
      ∧ (∀ b, b ≠ uid →
          ((importWallet decode derive g uid true text).2).wallets b = g.wallets b)
      ∧ (importWallet decode derive
            (importWallet decode derive g uid true text).2 uid true text).1 =
          (importWallet decode derive g uid true text).1)
    ∧ (¬ (List.isPrefixOf "dev".data text.data = true ∨ 80 < text.length) →
        importWallet decode derive g uid true text = (.ignored, g)) := by
  refine ⟨fun hdec hguard => ?_, fun sk hdec hlen hguard => ?_,
    fun sk hdec hlen hguard => ?_, fun hng => ?_⟩
  · have hcond : (true && (List.isPrefixOf "dev".data text.data || decide (80 < text.length))) = true := by
      rcases hguard with hg | hg <;> simp [hg]
    unfold importWallet
    rw [if_pos hcond, hdec]
  · have hcond : (true && (List.isPrefixOf "dev".data text.data || decide (80 < text.length))) = true := by
      rcases hguard with hg | hg <;> simp [hg]
    unfold importWallet
    rw [if_pos hcond, hdec]
    dsimp only
    rw [if_neg hlen]
  · have hcond : (true && (List.isPrefixOf "dev".data text.data || decide (80 < text.length))) = true := by
      rcases hguard with hg | hg <;> simp [hg]
    have houtcome : ∀ g0 : GState, importWallet decode derive g0 uid true text =
        (.imported (derive sk),
         { g0 with wallets := fun b =>
             if b = uid then some { publicKey := derive sk, privateKey := text.trim }
             else g0.wallets b }) := by
      intro g0
      unfold importWallet
      rw [if_pos hcond, hdec]
      dsimp only
      rw [if_pos hlen]
    refine ⟨by rw [houtcome g], by rw [houtcome g]; simp,
      fun b hb => by rw [houtcome g]; simp [hb], ?_⟩
    rw [houtcome g]
    rw [houtcome]
  · have hcond : (true && (List.isPrefixOf "dev".data text.data || decide (80 < text.length))) = false := by
      obtain ⟨h1, h2⟩ := not_or.mp hng
      simp only [List.isPrefixOf_iff_prefix] at h1
      have hpre : List.isPrefixOf "dev".data text.data = false :=
        Bool.eq_false_iff.mpr fun hb => h1 (List.isPrefixOf_iff_prefix.mp hb)
      simp [hpre, h2]
    unfold importWallet
    rw [hcond]
    simp

/-- Instantiation of claim C8's success branch: importing an 88-character
text that decodes to a 64-byte key stores the derived public key. -/
theorem claim_C8_witness :
    (importWallet (fun _ => some (List.replicate 64 2))
        (fun _ => "pk") ⟨fun _ => none, fun _ => none⟩ 9 true
        "QQQQQQQQQQQQQQQQQQQQQQQQQQQQQQQQQQQQQQQQQQQQQQQQQQQQQQQQQQQQQQQQQQQQQQQQQQQQQQQQQQQQQQQQ").1 =
      .imported "pk" :=
  ((claim_C8 (fun _ => some (List.replicate 64 2))
      (fun _ => "pk") ⟨fun _ => none, fun _ => none⟩ 9
      "QQQQQQQQQQQQQQQQQQQQQQQQQQQQQQQQQQQQQQQQQQQQQQQQQQQQQQQQQQQQQQQQQQQQQQQQQQQQQQQQQQQQQQQQ").2.2.1
    (List.replicate 64 2) rfl (by decide) (Or.inr (by decide))).1

/-- Counterexample to claim C8 as stated: with a decoder mapping this
44-character base58-looking text to a 32-byte key, the import handler
ignores the message entirely — its entry guard (a `dev` prefix or more
than 80 characters) rejects it — so no invalid-key error is raised even
though the decoded key is not 64 bytes, and the registries are
untouched. -/
theorem claim_C8_counterexample :
    (importWallet (fun _ => some (List.replicate 32 1))
        (fun _ => "pk") ⟨fun _ => none, fun _ => none⟩ 7 true
        "4fYNw3dojWmQ4dXtSGE9epjRiLMmNwnV6qzzYbCujMvE") =
      (.ignored, ⟨fun _ => none, fun _ => none⟩)
    ∧ ImportOutcome.ignored ≠ ImportOutcome.invalidKey
    ∧ (fun _ => some (List.replicate 32 1))
        (String.trim "4fYNw3dojWmQ4dXtSGE9epjRiLMmNwnV6qzzYbCujMvE") =
      some (List.replicate 32 1)
    ∧ (List.replicate 32 1).length ≠ 64 := by
  refine ⟨?_, by decide, rfl, by decide⟩
  have hguard : (true && (List.isPrefixOf "dev".data
      "4fYNw3dojWmQ4dXtSGE9epjRiLMmNwnV6qzzYbCujMvE".data
      || decide (80 < "4fYNw3dojWmQ4dXtSGE9epjRiLMmNwnV6qzzYbCujMvE".length))) = false := by
    decide
  unfold importWallet
  rw [hguard]
  simp

end SarosDlmm
